import Mathlib

/-!
Shallow embedding of the bond-trading simulation engine of `src/app.py`
(Misión Bonos).  Python floats are modelled as `ℚ`, Python ints as `ℤ` or
`ℕ` where the value is structurally non-negative (round counters, list
lengths), Python dicts keyed by strings as association lists with
Python-dict update semantics (update-in-place for an existing key,
append for a fresh key).  Spanish field names from the source are kept.
-/

namespace MisionBonos

/-- Trading phase of a game (`game["estado"]` in the source). -/
inductive Phase where
  | LOBBY
  | TRADING_ON
  | TRADING_OFF
  | FIN
deriving DecidableEq, Repr

/-- Order side. `exec_order` only ever records `"BUY"` or `"SELL"` (the UI
selectbox offers exactly these), so the side is modelled as a two-value
type; the source's `else`-branch for anything other than `"BUY"` is the
`SELL` case. -/
inductive Side where
  | BUY
  | SELL
deriving DecidableEq, Repr

/-- The `game` sub-record of the state document (`load_state`). -/
structure Game where
  rondas_totales : ℕ
  ronda_actual : ℕ
  estado : Phase
  fraccion_anio : ℚ
  bid_bp : ℚ
  ask_bp : ℚ
  comision_bps : ℚ
  cash_inicial : ℚ
deriving DecidableEq, Repr

/-- A bond of the loaded scenario (rows built by `apply_scenario_to_state`).
Fields not read by the engine (display name, callable flag, call price,
description) are omitted. -/
structure Bond where
  bond_id : String
  valor_nominal : ℚ
  tasa_cupon_anual : ℚ
  frecuencia_anual : ℤ
  vencimiento_anios : ℚ
  spread_bps : ℚ
deriving DecidableEq, Repr

/-- Event kind: `"MARKET"` or `"IDIOS"` in the source. -/
inductive EvTipo where
  | MARKET
  | IDIOS
deriving DecidableEq, Repr

/-- A scripted event.  `bond_id` is `None` for market events in the source,
hence an `Option`. -/
structure Event where
  round : ℕ
  tipo : EvTipo
  bond_id : Option String
  delta_tasa_bps : ℚ
  impacto_bps : ℚ
  publicado : Bool
deriving DecidableEq, Repr

/-- A published price row (`new_prices` entries in
`publish_prices_for_round`); the publication timestamp is presentation
data and omitted. -/
structure PricePoint where
  ronda : ℕ
  bond_id : String
  y_efectiva : ℚ
  precio_mid : ℚ
  precio_bid : ℚ
  precio_ask : ℚ
deriving DecidableEq, Repr

/-- A registered team (`team_register`).  The PIN, active flag and
timestamp are presentation data and omitted; note there is no mutable
balance field — only the immutable initial-cash snapshot. -/
structure Team where
  team_id : String
  team_name : String
  cash_inicial : ℚ
deriving DecidableEq, Repr

/-- An immutable recorded order (the dict appended by `exec_order`);
the timestamp is omitted. -/
structure Order where
  team_id : String
  bond_id : String
  side : Side
  qty : ℚ
  price_exec : ℚ
  fees : ℚ
  ronda : ℕ
deriving DecidableEq, Repr

/-- A manual ledger adjustment (consumed, never produced, by the core). -/
structure LedgerEntry where
  team_id : String
  cash_delta : ℚ
deriving DecidableEq, Repr

/-- The whole per-game state document (`load_state`'s dict). -/
structure GameState where
  game : Game
  bonds : List Bond
  events : List Event
  prices : List PricePoint
  teams : List Team
  orders : List Order
  ledger : List LedgerEntry
deriving DecidableEq, Repr

/-! ### Python-dict association lists

`team_positions_and_cash` builds `pos` as a Python dict keyed by bond id,
and `get_prices_dict` builds a dict by comprehension.  A Python dict
updates the value in place when the key exists (keeping its position in
the iteration order) and appends a fresh key at the end. -/

/-- Python `d.get(k, 0.0)`: value of the first (unique) binding of `k`, else 0. -/
def dget : List (String × ℚ) → String → ℚ
  | [], _ => 0
  | p :: ps, k => if p.1 == k then p.2 else dget ps k

/-- Python `d[k] = v`: update the binding of `k` in place, or append it. -/
def dset : List (String × ℚ) → String → ℚ → List (String × ℚ)
  | [], k, v => [(k, v)]
  | p :: ps, k, v => if p.1 == k then (k, v) :: ps else p :: dset ps k v

/-! ### Financial model (`price_bond_mid`, `bid_ask_from_mid`,
`effective_ytm`) -/

/-- Source `price_bond_mid(bond, ytm_anual, frac_anio, rounds_elapsed)`: simple
DCF price.  `int(bond.get("frecuencia_anual", 2) or 2)` coalesces a
falsy (zero) frequency to 2, hence the `if`.  Division is `ℚ`'s total
division; at the singular yield `ytm_anual = -f` (where `1 + i = 0`)
the Python raises `ZeroDivisionError` despite the comment above its
loop, while this model returns the floor `0.01` — the two agree on all
non-singular yields. -/
def price_bond_mid (bond : Bond) (ytm_anual : ℚ) (frac_anio : ℚ)
    (rounds_elapsed : ℕ) : ℚ :=
  let f : ℤ := if bond.frecuencia_anual = 0 then 2 else bond.frecuencia_anual
  let V : ℚ := bond.valor_nominal
  let cup_anual : ℚ := bond.tasa_cupon_anual
  let venc_ini : ℚ := bond.vencimiento_anios
  let venc_rest : ℚ := max 0 (venc_ini - (rounds_elapsed : ℚ) * frac_anio)
  let dt : ℚ := 1 / (f : ℚ)
  let N : ℕ := (max 1 (Int.ceil (venc_rest / dt))).toNat
  let C : ℚ := V * (cup_anual / (f : ℚ))
  let i : ℚ := ytm_anual / (f : ℚ)
  let pv : ℚ :=
    (Finset.range N).sum (fun k => C / (1 + i) ^ (k + 1)) + V / (1 + i) ^ N
  max (1 / 100) pv

/-- Source `bid_ask_from_mid(mid, bid_bp, ask_bp)`. -/
def bid_ask_from_mid (mid bid_bp ask_bp : ℚ) : ℚ × ℚ :=
  (mid * (1 - bid_bp / 10000), mid * (1 + ask_bp / 10000))

/-- Source `effective_ytm(spread_bps, delta_market_bps, idios_bps)`: base rate is
a fixed zero; bps are composed into a fraction. -/
def effective_ytm (spread_bps delta_market_bps idios_bps : ℚ) : ℚ :=
  (spread_bps + delta_market_bps + idios_bps) / 10000

/-! ### Teams and reconstruction -/

/-- Source `team_get(state, team_name)`: first team with that display name. -/
def team_get (state : GameState) (team_name : String) : Option Team :=
  state.teams.find? (fun t => t.team_name == team_name)

/-- Source `team_register(state, team_name, pin)`: append-only registration with
sequential ids `T<n>`; returns the updated state and the success flag. -/
def team_register (state : GameState) (team_name : String) :
    GameState × Bool :=
  match team_get state team_name with
  | some _ => (state, false)
  | none =>
      ({ state with
          teams := state.teams ++
            [{ team_id := "T" ++ toString (state.teams.length + 1),
               team_name := team_name,
               cash_inicial := state.game.cash_inicial }] },
        true)

/-- Effect of one order on a team's accumulator (the body of the
`for o in state["orders"]` loop of `team_positions_and_cash`). -/
def applyOrder (tid : String) (acc : List (String × ℚ) × ℚ) (o : Order) :
    List (String × ℚ) × ℚ :=
  if o.team_id == tid then
    match o.side with
    | Side.BUY =>
        (dset acc.1 o.bond_id (dget acc.1 o.bond_id + o.qty),
         acc.2 - (o.qty * o.price_exec + o.fees))
    | Side.SELL =>
        (dset acc.1 o.bond_id (dget acc.1 o.bond_id - o.qty),
         acc.2 + (o.qty * o.price_exec - o.fees))
  else acc

/-- Source `team_positions_and_cash(state, team_name)`: reconstruct positions and
cash from orders and ledger; `({}, 0.0)` for an unknown team. -/
def team_positions_and_cash (state : GameState) (team_name : String) :
    List (String × ℚ) × ℚ :=
  match team_get state team_name with
  | none => ([], 0)
  | some team =>
      let cash0 : ℚ := team.cash_inicial +
        ((state.ledger.filter (fun l => l.team_id == team.team_id)).map
          (fun l => l.cash_delta)).sum
      state.orders.foldl (applyOrder team.team_id) ([], cash0)

/-! ### Order execution engine (`can_exec_order`, `exec_order`) -/

/-- Source `can_exec_order(state, team_name, side, bond_id, qty)`: result is
`(ok, msg, px_exec, fees)`. -/
def can_exec_order (state : GameState) (team_name : String) (side : Side)
    (bond_id : String) (qty : ℚ) : Bool × String × ℚ × ℚ :=
  let g := state.game
  let r := g.ronda_actual
  match state.prices.find?
      (fun p => p.ronda == r && p.bond_id == bond_id) with
  | none => (false, "No hay precios publicados para este bono/ronda.", 0, 0)
  | some p =>
      let px_exec : ℚ :=
        match side with
        | Side.BUY => p.precio_ask
        | Side.SELL => p.precio_bid
      let fees : ℚ := (qty * px_exec) * (g.comision_bps / 10000)
      let pc := team_positions_and_cash state team_name
      match side with
      | Side.BUY =>
          if pc.2 < qty * px_exec + fees then
            (false, "Cash insuficiente.", px_exec, fees)
          else (true, "OK", px_exec, fees)
      | Side.SELL =>
          if dget pc.1 bond_id < qty then
            (false, "No posee cantidad suficiente para vender.", px_exec, fees)
          else (true, "OK", px_exec, fees)

/-- Source `exec_order(state, team_name, side, bond_id, qty)`: on success appends
the immutable order record (the only mutation) and answers `(ok, msg)`;
the mutated state is returned explicitly.  The source formats order
details into the success message (presentation only; elided here).  When
`can_exec_order` passes but the team is unregistered the source raises a
`TypeError` on `team["team_id"]`; that branch is modelled as a rejection
leaving the state unchanged (it is unreachable through the UI, which
only submits orders for a registered, logged-in team). -/
def exec_order (state : GameState) (team_name : String) (side : Side)
    (bond_id : String) (qty : ℚ) : GameState × Bool × String :=
  let c := can_exec_order state team_name side bond_id qty
  if c.1 then
    match team_get state team_name with
    | none => (state, false, "equipo no encontrado")
    | some team =>
        ({ state with
            orders := state.orders ++
              [{ team_id := team.team_id, bond_id := bond_id, side := side,
                 qty := qty, price_exec := c.2.2.1, fees := c.2.2.2,
                 ronda := state.game.ronda_actual }] },
          true, "Orden ejecutada.")
  else (state, false, c.2.1)

/-! ### Price publication (`publish_prices_for_round`) -/

/-- Model of `str(x)` for a Python value that is a string or `None`, as used in the
bond-id comparison `str(e.get("bond_id")) == str(b.get("bond_id"))`. -/
def strOfOpt : Option String → String
  | none => "None"
  | some s => s

/-- Market delta of a round: the `ev_mkt` sum of
`publish_prices_for_round` (all `MARKET` events of the round, added). -/
def marketDelta (events : List Event) (r : ℕ) : ℚ :=
  ((events.filter (fun e => e.round == r && e.tipo == EvTipo.MARKET)).map
    (fun e => e.delta_tasa_bps)).sum

/-- Idiosyncratic delta of a round for one bond id: the `idios` sum of
`publish_prices_for_round` (all `IDIOS` events of the round naming that
bond, added). -/
def idiosDelta (events : List Event) (r : ℕ) (bond_id : String) : ℚ :=
  ((events.filter (fun e =>
      e.round == r && e.tipo == EvTipo.IDIOS &&
        strOfOpt e.bond_id == bond_id)).map
    (fun e => e.impacto_bps)).sum

/-- The freshly computed price row for one bond (body of the
`for b in state["bonds"]` loop of `publish_prices_for_round`). -/
def price_row (state : GameState) (b : Bond) : PricePoint :=
  let g := state.game
  let r := g.ronda_actual
  let ytm := effective_ytm b.spread_bps (marketDelta state.events r)
    (idiosDelta state.events r b.bond_id)
  let mid := price_bond_mid b ytm g.fraccion_anio (r - 1)
  let ba := bid_ask_from_mid mid g.bid_bp g.ask_bp
  { ronda := r, bond_id := b.bond_id, y_efectiva := ytm,
    precio_mid := mid, precio_bid := ba.1, precio_ask := ba.2 }

/-- The `new_prices` list of `publish_prices_for_round`: one fresh row per bond. -/
def round_prices (state : GameState) : List PricePoint :=
  state.bonds.map (price_row state)

/-- Source `publish_prices_for_round(state)`: compute the round's prices, mark
the round's events published, replace the round's price set (delete all
rows of the round, then insert the new batch) and switch to
`TRADING_ON`.  The function checks no phase or scenario precondition —
the "at least one bond" guard lives in the moderator UI
(`ui_moderator`). -/
def publish_prices_for_round (state : GameState) : GameState :=
  let r := state.game.ronda_actual
  { state with
      events := state.events.map
        (fun e => if e.round == r then { e with publicado := true } else e),
      prices := state.prices.filter (fun p => !(p.ronda == r))
        ++ round_prices state,
      game := { state.game with estado := Phase.TRADING_ON } }

/-- Source `get_prices_dict(state, ronda)`: dict comprehension
`{p["bond_id"]: p["precio_mid"] for p in prices if p["ronda"] == ronda}`
(a later duplicate key overrides an earlier one). -/
def get_prices_dict (state : GameState) (ronda : ℕ) :
    List (String × ℚ) :=
  (state.prices.filter (fun p => p.ronda == ronda)).foldl
    (fun d p => dset d p.bond_id p.precio_mid) []

/-! ### Leaderboard (`compute_leaderboard`) -/

/-- One leaderboard row (a row of the `rows` list in the source). -/
structure LBRow where
  equipo : String
  cash : ℚ
  valor_posiciones : ℚ
  valor_portafolio : ℚ
deriving DecidableEq, Repr

/-- The unranked leaderboard rows, one per team in registration order
(the `rows` list built by `compute_leaderboard`). -/
def lb_rows (state : GameState) (ronda : ℕ) : List LBRow :=
  let prices_mid := get_prices_dict state ronda
  state.teams.map (fun t =>
    let pc := team_positions_and_cash state t.team_name
    let valor_pos : ℚ := (pc.1.map (fun bq => bq.2 * dget prices_mid bq.1)).sum
    { equipo := t.team_name, cash := pc.2, valor_posiciones := valor_pos,
      valor_portafolio := pc.2 + valor_pos })

/-
The ranking step of `compute_leaderboard` —
`df.sort_values("Valor_Portafolio", ascending=False)` with pandas'
default `kind='quicksort'` — is deliberately not modelled.  pandas'
`nargsort` reverses the column, argsorts it ascending with the chosen
numpy kind and reverses the indexer; numpy's quicksort kind is an
introsort that is an insertion sort (stable in effect) only below its
small-array partition threshold, and partitioning reorders equal keys
above it, so the relative order of tied rows is an implementation
detail of the unpinned numpy dependency, not a function of the game
state alone.  Only the unranked row computation (`lb_rows`) has
well-defined semantics to embed.
-/

/-! ### Moderator phase transitions (`ui_moderator`) -/

/-- The "Cerrar TRADING" button: unconditionally sets `TRADING_OFF`. -/
def close_trading (state : GameState) : GameState :=
  { state with game := { state.game with estado := Phase.TRADING_OFF } }

/-- The "Avanzar a la siguiente ronda" button: increments the round and
returns to `LOBBY` (shown only when `estado == TRADING_OFF` and
`ronda_actual < rondas_totales`). -/
def advance_round (state : GameState) : GameState :=
  { state with
      game := { state.game with
        ronda_actual := state.game.ronda_actual + 1,
        estado := Phase.LOBBY } }

/-- The "Finalizar juego" button: sets `FIN` (shown only when
`estado == TRADING_OFF` and not `ronda_actual < rondas_totales`). -/
def finalize_game (state : GameState) : GameState :=
  { state with game := { state.game with estado := Phase.FIN } }

/-- One engine step as drivable from the UI: price publication (guarded
in `ui_moderator` by a non-empty bond list), closing trading, advancing
the round, finalizing, team registration, and order submission.  The
guards of `advance` and `finalize` are exactly the `ui_moderator`
conditions under which the buttons exist.  (Moderator edits of the game
parameters through the sidebar number inputs are not phase transitions
and are outside this relation.) -/
inductive Step : GameState → GameState → Prop where
  | publish (s : GameState) (h : s.bonds ≠ []) :
      Step s (publish_prices_for_round s)
  | close (s : GameState) : Step s (close_trading s)
  | advance (s : GameState) (h : s.game.estado = Phase.TRADING_OFF)
      (hlt : s.game.ronda_actual < s.game.rondas_totales) :
      Step s (advance_round s)
  | finalize (s : GameState) (h : s.game.estado = Phase.TRADING_OFF)
      (hge : ¬ s.game.ronda_actual < s.game.rondas_totales) :
      Step s (finalize_game s)
  | register (s : GameState) (name : String) :
      Step s (team_register s name).1
  | order (s : GameState) (name : String) (side : Side) (bond : String)
      (qty : ℚ) : Step s (exec_order s name side bond qty).1

/-! ### Association-list lemmas -/

theorem dget_dset_self (l : List (String × ℚ)) (k : String) (v : ℚ) :
    dget (dset l k v) k = v := by
  induction l with
  | nil => simp [dget, dset]
  | cons p ps ih =>
      by_cases h : p.1 = k
      · simp [dset, h, dget]
      · simp [dset, h, dget, ih]

theorem dget_dset_ne (l : List (String × ℚ)) (k k' : String) (v : ℚ)
    (h : k' ≠ k) : dget (dset l k v) k' = dget l k' := by
  induction l with
  | nil => simp [dget, dset, h.symm]
  | cons p ps ih =>
      by_cases hp : p.1 = k
      · by_cases hpk : p.1 = k'
        · exact absurd (hpk.symm.trans hp) h
        · simp [dset, hp, dget, h.symm, hpk]
      · by_cases hpk : p.1 = k'
        · simp [dset, hp, dget, hpk, h]
        · simp [dset, hp, dget, hpk, ih]

/-! ### Reconstruction as a sum over the order history -/

/-- Cash effect of one order on its team, as the spec states it
(§4.5): a `BUY` costs `qty×price + fees`, a `SELL` earns
`qty×price − fees`. -/
def orderCashEffect (o : Order) : ℚ :=
  match o.side with
  | Side.BUY => -(o.qty * o.price_exec + o.fees)
  | Side.SELL => o.qty * o.price_exec - o.fees

/-- Quantity effect of one order on its team's holding of the traded
bond, as the spec states it (§4.5). -/
def orderQtyEffect (o : Order) : ℚ :=
  match o.side with
  | Side.BUY => o.qty
  | Side.SELL => -o.qty

theorem foldl_applyOrder_cash (tid : String) (os : List Order) :
    ∀ acc : List (String × ℚ) × ℚ,
      (os.foldl (applyOrder tid) acc).2
        = acc.2 + ((os.filter (fun o => o.team_id == tid)).map
            orderCashEffect).sum := by
  induction os with
  | nil => intro acc; simp
  | cons o os ih =>
      intro acc
      rw [List.foldl_cons, ih]
      by_cases h : o.team_id = tid
      · have hb : (o.team_id == tid) = true := by simp [h]
        cases hs : o.side <;>
          simp [applyOrder, hb, hs, orderCashEffect] <;> ring
      · have hb : (o.team_id == tid) = false := by simp [h]
        simp [applyOrder, hb]

theorem foldl_applyOrder_pos (tid : String) (b : String) (os : List Order) :
    ∀ acc : List (String × ℚ) × ℚ,
      dget (os.foldl (applyOrder tid) acc).1 b
        = dget acc.1 b + ((os.filter
            (fun o => o.team_id == tid && o.bond_id == b)).map
            orderQtyEffect).sum := by
  induction os with
  | nil => intro acc; simp
  | cons o os ih =>
      intro acc
      rw [List.foldl_cons, ih]
      by_cases h : o.team_id = tid
      · have hb : (o.team_id == tid) = true := by simp [h]
        by_cases hbid : o.bond_id = b
        · subst hbid
          cases hs : o.side <;>
            simp [applyOrder, hb, hs, orderQtyEffect, dget_dset_self] <;>
            ring
        · have hbb : (o.bond_id == b) = false := by simp [hbid]
          cases hs : o.side <;>
            simp [applyOrder, hb, hs, hbb,
              dget_dset_ne _ _ _ _ (fun hq => hbid hq.symm)]
      · have hb : (o.team_id == tid) = false := by simp [h]
        simp [applyOrder, hb]

/-! ### Concrete sample data (used by witnesses and counterexamples) -/

/-- The `B1` bond of the example scenario in `ui_moderator`. -/
def bondB1 : Bond :=
  { bond_id := "B1", valor_nominal := 1000, tasa_cupon_anual := 8 / 100,
    frecuencia_anual := 2, vencimiento_anios := 3, spread_bps := 50 }

/-- Default game parameters (`load_state`), with trading enabled. -/
def game0 : Game :=
  { rondas_totales := 3, ronda_actual := 1, estado := Phase.TRADING_ON,
    fraccion_anio := 1 / 4, bid_bp := 20, ask_bp := 20, comision_bps := 10,
    cash_inicial := 1000000 }

def teamAlpha : Team :=
  { team_id := "T1", team_name := "alpha", cash_inicial := 1000000 }

def teamBeta : Team :=
  { team_id := "T2", team_name := "beta", cash_inicial := 1000000 }

/-- A published round-1 price row for `B1` (mid 100, 20 bp spreads). -/
def pp1 : PricePoint :=
  { ronda := 1, bond_id := "B1", y_efectiva := 1 / 80, precio_mid := 100,
    precio_bid := 499 / 5, precio_ask := 501 / 5 }

/-- A recorded BUY of 10 × `B1` at the ask `501/5` with 10 bp fees. -/
def ordBuy : Order :=
  { team_id := "T1", bond_id := "B1", side := Side.BUY, qty := 10,
    price_exec := 501 / 5, fees := 501 / 500, ronda := 1 }

/-- Sample state: one bond, one published price, one team that bought 10
`B1` and received a manual +500 ledger adjustment. -/
def stC1 : GameState :=
  { game := game0, bonds := [bondB1], events := [], prices := [pp1],
    teams := [teamAlpha], orders := [ordBuy],
    ledger := [{ team_id := "T1", cash_delta := 500 }] }

/-- Evaluation of the reconstruction at the sample state: a holding of
10 × `B1` and cash `1000000 + 500 − (1002 + 501/500)`. -/
theorem tpc_stC1 :
    team_positions_and_cash stC1 "alpha" = ([("B1", 10)], 499748499 / 500) := by
  norm_num [team_positions_and_cash, team_get, stC1, game0, teamAlpha,
    ordBuy, applyOrder, dget, dset]

/-- The round-1 price lookup at the sample state finds `pp1`. -/
theorem find_price_stC1 :
    stC1.prices.find?
      (fun pp => pp.ronda == stC1.game.ronda_actual && pp.bond_id == "B1")
      = some pp1 := rfl

/-- The team lookup at the sample state finds `teamAlpha`. -/
theorem team_get_stC1 : team_get stC1 "alpha" = some teamAlpha := rfl

/-! ### Claim theorems -/

/-- C1: for every registered team, `team_positions_and_cash` returns cash
equal to the team's initial cash plus the sum of its ledger deltas plus
the summed cash effects of its orders (−(qty×price+fees) for a BUY,
qty×price−fees for a SELL), and positions mapping each bond id to the
sum of BUY minus SELL quantities of the team's orders for that bond; it
is a pure fold over the stored order/ledger history — the result depends
on nothing but the team record and that history (no balance field exists
in the state document to read or write). -/
theorem team_positions_and_cash_spec (st : GameState) (name : String)
    (t : Team) (ht : team_get st name = some t) :
    (team_positions_and_cash st name).2
      = t.cash_inicial
        + ((st.ledger.filter (fun l => l.team_id == t.team_id)).map
            (fun l => l.cash_delta)).sum
        + ((st.orders.filter (fun o => o.team_id == t.team_id)).map
            orderCashEffect).sum
    ∧ (∀ b, dget (team_positions_and_cash st name).1 b
        = ((st.orders.filter
            (fun o => o.team_id == t.team_id && o.bond_id == b)).map
            orderQtyEffect).sum)
    ∧ (∀ st' : GameState, team_get st' name = team_get st name →
        st'.ledger = st.ledger → st'.orders = st.orders →
        team_positions_and_cash st' name = team_positions_and_cash st name) := by
  refine ⟨?_, ?_, ?_⟩
  · simp only [team_positions_and_cash, ht]
    rw [foldl_applyOrder_cash]
  · intro b
    simp only [team_positions_and_cash, ht]
    rw [foldl_applyOrder_pos]
    simp [dget]
  · intro st' h1 h2 h3
    simp only [team_positions_and_cash, h1, ht, h2, h3]

/-- Witness for C1 at the concrete state `stC1`. -/
theorem team_positions_and_cash_spec_witness :
    team_get stC1 "alpha" = some teamAlpha
    ∧ ((team_positions_and_cash stC1 "alpha").2
      = teamAlpha.cash_inicial
        + ((stC1.ledger.filter (fun l => l.team_id == teamAlpha.team_id)).map
            (fun l => l.cash_delta)).sum
        + ((stC1.orders.filter (fun o => o.team_id == teamAlpha.team_id)).map
            orderCashEffect).sum
    ∧ (∀ b, dget (team_positions_and_cash stC1 "alpha").1 b
        = ((stC1.orders.filter
            (fun o => o.team_id == teamAlpha.team_id && o.bond_id == b)).map
            orderQtyEffect).sum)
    ∧ (∀ st' : GameState, team_get st' "alpha" = team_get stC1 "alpha" →
        st'.ledger = stC1.ledger → st'.orders = stC1.orders →
        team_positions_and_cash st' "alpha"
          = team_positions_and_cash stC1 "alpha")) :=
  ⟨by decide, team_positions_and_cash_spec stC1 "alpha" teamAlpha (by decide)⟩

/-- C2: with a published price `p` for (current round, bondId), a BUY
executes at the ask and is rejected with the insufficient-cash reason
exactly when the freshly reconstructed cash is below
`qty × ask + fees` with `fees = qty × ask × commissionBps/10000`; a SELL
executes at the bid and is rejected with the insufficient-inventory
reason exactly when the reconstructed holding of the bond is below
`qty`; without a published price the order is rejected with the no-price
reason. -/
theorem can_exec_order_spec (st : GameState) (name : String) (t : Team)
    (bond : String) (qty : ℚ) (_ht : team_get st name = some t) :
    (∀ p, st.prices.find?
        (fun pp => pp.ronda == st.game.ronda_actual && pp.bond_id == bond)
          = some p →
      can_exec_order st name Side.BUY bond qty
        = (if (team_positions_and_cash st name).2
              < qty * p.precio_ask
                + qty * p.precio_ask * (st.game.comision_bps / 10000)
           then (false, "Cash insuficiente.", p.precio_ask,
             qty * p.precio_ask * (st.game.comision_bps / 10000))
           else (true, "OK", p.precio_ask,
             qty * p.precio_ask * (st.game.comision_bps / 10000)))
      ∧ can_exec_order st name Side.SELL bond qty
        = (if dget (team_positions_and_cash st name).1 bond < qty
           then (false, "No posee cantidad suficiente para vender.",
             p.precio_bid,
             qty * p.precio_bid * (st.game.comision_bps / 10000))
           else (true, "OK", p.precio_bid,
             qty * p.precio_bid * (st.game.comision_bps / 10000))))
    ∧ (st.prices.find?
        (fun pp => pp.ronda == st.game.ronda_actual && pp.bond_id == bond)
          = none →
      ∀ side, can_exec_order st name side bond qty
        = (false, "No hay precios publicados para este bono/ronda.", 0, 0)) := by
  constructor
  · intro p hp
    constructor
    · simp only [can_exec_order, hp]
    · simp only [can_exec_order, hp]
  · intro hp side
    cases side <;> simp [can_exec_order, hp]

/-- Witness for C2 at the concrete state `stC1`. -/
theorem can_exec_order_spec_witness :
    team_get stC1 "alpha" = some teamAlpha
    ∧ ((∀ p, stC1.prices.find?
        (fun pp => pp.ronda == stC1.game.ronda_actual && pp.bond_id == "B1")
          = some p →
      can_exec_order stC1 "alpha" Side.BUY "B1" 5
        = (if (team_positions_and_cash stC1 "alpha").2
              < 5 * p.precio_ask
                + 5 * p.precio_ask * (stC1.game.comision_bps / 10000)
           then (false, "Cash insuficiente.", p.precio_ask,
             5 * p.precio_ask * (stC1.game.comision_bps / 10000))
           else (true, "OK", p.precio_ask,
             5 * p.precio_ask * (stC1.game.comision_bps / 10000)))
      ∧ can_exec_order stC1 "alpha" Side.SELL "B1" 5
        = (if dget (team_positions_and_cash stC1 "alpha").1 "B1" < 5
           then (false, "No posee cantidad suficiente para vender.",
             p.precio_bid,
             5 * p.precio_bid * (stC1.game.comision_bps / 10000))
           else (true, "OK", p.precio_bid,
             5 * p.precio_bid * (stC1.game.comision_bps / 10000))))
    ∧ (stC1.prices.find?
        (fun pp => pp.ronda == stC1.game.ronda_actual && pp.bond_id == "B1")
          = none →
      ∀ side, can_exec_order stC1 "alpha" side "B1" 5
        = (false, "No hay precios publicados para este bono/ronda.", 0, 0))) :=
  ⟨by decide, can_exec_order_spec stC1 "alpha" teamAlpha "B1" 5 (by decide)⟩

/-- C3: a rejected order (no price, insufficient cash or insufficient
inventory — any `can_exec_order` failure) leaves the whole game state
unchanged, so every team's reconstructed cash and positions are
identical to before the attempt; on success the appended immutable
order record is the only mutation. -/
theorem exec_order_frame (st : GameState) (name : String) (side : Side)
    (bond : String) (qty : ℚ) :
    ((can_exec_order st name side bond qty).1 = false →
      exec_order st name side bond qty
        = (st, false, (can_exec_order st name side bond qty).2.1)
      ∧ ∀ n, team_positions_and_cash
          (exec_order st name side bond qty).1 n
          = team_positions_and_cash st n)
    ∧ (∀ t, team_get st name = some t →
      (can_exec_order st name side bond qty).1 = true →
      exec_order st name side bond qty
        = ({ st with orders := st.orders ++
            [{ team_id := t.team_id, bond_id := bond, side := side,
               qty := qty,
               price_exec := (can_exec_order st name side bond qty).2.2.1,
               fees := (can_exec_order st name side bond qty).2.2.2,
               ronda := st.game.ronda_actual }] },
           true, "Orden ejecutada.")) := by
  constructor
  · intro h
    have hst : exec_order st name side bond qty
        = (st, false, (can_exec_order st name side bond qty).2.1) := by
      simp [exec_order, h]
    exact ⟨hst, fun n => by rw [hst]⟩
  · intro t ht hok
    simp [exec_order, hok, ht]

/-- Witness for C3: a SELL of 100 `B1` with only 10 held is rejected and
changes nothing. -/
theorem exec_order_frame_witness :
    (can_exec_order stC1 "alpha" Side.SELL "B1" 100).1 = false
    ∧ (exec_order stC1 "alpha" Side.SELL "B1" 100
        = (stC1, false,
            (can_exec_order stC1 "alpha" Side.SELL "B1" 100).2.1)
      ∧ ∀ n, team_positions_and_cash
          (exec_order stC1 "alpha" Side.SELL "B1" 100).1 n
          = team_positions_and_cash stC1 n) :=
  have h : (can_exec_order stC1 "alpha" Side.SELL "B1" 100).1 = false := by
    norm_num [can_exec_order, find_price_stC1, tpc_stC1, dget, ordBuy]
  ⟨h, (exec_order_frame stC1 "alpha" Side.SELL "B1" 100).1 h⟩

/-- C4 counterexample: a BUY with quantity 0 is NOT rejected by the
engine — `exec_order` reports success and appends an order record, so
the claim that a non-positive quantity is rejected before any mutation
is false on the code. -/
theorem exec_order_zero_qty_counterexample :
    (exec_order stC1 "alpha" Side.BUY "B1" 0).2.1 = true
    ∧ (exec_order stC1 "alpha" Side.BUY "B1" 0).1.orders.length
        = stC1.orders.length + 1 := by
  have hok : (can_exec_order stC1 "alpha" Side.BUY "B1" 0).1 = true := by
    norm_num [can_exec_order, find_price_stC1, tpc_stC1]
  constructor
  · simp [exec_order, hok, team_get_stC1]
  · simp [exec_order, hok, team_get_stC1]

/-- C4 amended: the order engine itself performs no quantity validation
(quantity positivity is enforced only by the UI input widget,
`st.number_input(..., min_value=1)`).  With a published price,
non-negative ask and commission, and non-negative reconstructed cash, a
BUY with any `qty ≤ 0` passes every engine check: `exec_order` succeeds
and appends an order record for that quantity. -/
theorem exec_order_no_qty_validation (st : GameState) (name : String)
    (t : Team) (bond : String) (p : PricePoint) (qty : ℚ)
    (ht : team_get st name = some t)
    (hp : st.prices.find?
      (fun pp => pp.ronda == st.game.ronda_actual && pp.bond_id == bond)
        = some p)
    (hq : qty ≤ 0) (hpx : 0 ≤ p.precio_ask)
    (hc : 0 ≤ st.game.comision_bps)
    (hcash : 0 ≤ (team_positions_and_cash st name).2) :
    (exec_order st name Side.BUY bond qty).2.1 = true
    ∧ (exec_order st name Side.BUY bond qty).1.orders
        = st.orders ++
          [{ team_id := t.team_id, bond_id := bond, side := Side.BUY,
             qty := qty, price_exec := p.precio_ask,
             fees := qty * p.precio_ask * (st.game.comision_bps / 10000),
             ronda := st.game.ronda_actual }] := by
  have hqpx : qty * p.precio_ask ≤ 0 :=
    mul_nonpos_iff.mpr (Or.inr ⟨hq, hpx⟩)
  have hfees : qty * p.precio_ask * (st.game.comision_bps / 10000) ≤ 0 :=
    mul_nonpos_iff.mpr (Or.inr ⟨hqpx, div_nonneg hc (by norm_num)⟩)
  have hnl : ¬ ((team_positions_and_cash st name).2
      < qty * p.precio_ask
        + qty * p.precio_ask * (st.game.comision_bps / 10000)) :=
    not_lt.mpr ((add_nonpos hqpx hfees).trans hcash)
  constructor
  · simp [exec_order, can_exec_order, hp, hnl, ht]
  · simp [exec_order, can_exec_order, hp, hnl, ht]

/-- Witness for the amended C4 at `stC1` with quantity 0. -/
theorem exec_order_no_qty_validation_witness :
    (0 : ℚ) ≤ 0
    ∧ ((exec_order stC1 "alpha" Side.BUY "B1" 0).2.1 = true
    ∧ (exec_order stC1 "alpha" Side.BUY "B1" 0).1.orders
        = stC1.orders ++
          [{ team_id := teamAlpha.team_id, bond_id := "B1",
             side := Side.BUY, qty := 0, price_exec := pp1.precio_ask,
             fees := 0 * pp1.precio_ask * (stC1.game.comision_bps / 10000),
             ronda := stC1.game.ronda_actual }]) :=
  ⟨le_refl 0, exec_order_no_qty_validation stC1 "alpha" teamAlpha "B1" pp1 0
    (by decide) find_price_stC1 (le_refl 0) (by norm_num [pp1])
    (by norm_num [stC1, game0]) (by norm_num [tpc_stC1])⟩

/-- C5: publishing prices for the current round `r` replaces exactly the
price rows of round `r` — delete-all-for-round, then append the newly
computed batch — and leaves every price row of any other round and every
recorded order (with its stored executed price and fees, and the teams,
ledger and bonds) unchanged. -/
theorem publish_prices_round_replacement (st : GameState) :
    (publish_prices_for_round st).prices
      = st.prices.filter (fun p => !(p.ronda == st.game.ronda_actual))
        ++ round_prices st
    ∧ (publish_prices_for_round st).prices.filter
        (fun p => !(p.ronda == st.game.ronda_actual))
      = st.prices.filter (fun p => !(p.ronda == st.game.ronda_actual))
    ∧ (publish_prices_for_round st).orders = st.orders
    ∧ (publish_prices_for_round st).teams = st.teams
    ∧ (publish_prices_for_round st).ledger = st.ledger
    ∧ (publish_prices_for_round st).bonds = st.bonds := by
  refine ⟨rfl, ?_, rfl, rfl, rfl, rfl⟩
  have hnew : (round_prices st).filter
      (fun p => !(p.ronda == st.game.ronda_actual)) = [] := by
    simp [round_prices, price_row, List.filter_eq_nil_iff]
  calc (st.prices.filter (fun p => !(p.ronda == st.game.ronda_actual))
          ++ round_prices st).filter
        (fun p => !(p.ronda == st.game.ronda_actual))
      = (st.prices.filter (fun p => !(p.ronda == st.game.ronda_actual))).filter
          (fun p => !(p.ronda == st.game.ronda_actual))
        ++ (round_prices st).filter
          (fun p => !(p.ronda == st.game.ronda_actual)) := by
        rw [List.filter_append]
    _ = st.prices.filter (fun p => !(p.ronda == st.game.ronda_actual)) := by
        rw [hnew, List.append_nil, List.filter_filter]
        simp

/-! ### State-machine invariant -/

/-- The §3 game invariant: current round within `[1, total rounds]`. -/
def StateInv (s : GameState) : Prop :=
  1 ≤ s.game.ronda_actual ∧ s.game.ronda_actual ≤ s.game.rondas_totales

theorem exec_order_game (st : GameState) (name : String) (side : Side)
    (bond : String) (qty : ℚ) :
    (exec_order st name side bond qty).1.game = st.game := by
  by_cases hc : (can_exec_order st name side bond qty).1
  · cases hg : team_get st name <;> simp [exec_order, hc, hg]
  · simp [exec_order, hc]

theorem team_register_game (st : GameState) (name : String) :
    (team_register st name).1.game = st.game := by
  cases hg : team_get st name <;> simp [team_register, hg]

theorem step_preserves_inv (s s' : GameState) (h : Step s s')
    (hinv : StateInv s) : StateInv s' := by
  cases h with
  | publish hb => exact ⟨hinv.1, hinv.2⟩
  | close => exact ⟨hinv.1, hinv.2⟩
  | advance hoff hlt =>
      exact ⟨le_trans hinv.1 (Nat.le_succ _), hlt⟩
  | finalize hoff hge => exact ⟨hinv.1, hinv.2⟩
  | register name =>
      refine ⟨?_, ?_⟩ <;> rw [team_register_game]
      · exact hinv.1
      · exact hinv.2
  | order name side bond qty =>
      refine ⟨?_, ?_⟩ <;> rw [exec_order_game]
      · exact hinv.1
      · exact hinv.2

theorem reachable_inv (s0 s : GameState)
    (hr0 : s0.game.ronda_actual = 1) (ht0 : 1 ≤ s0.game.rondas_totales)
    (hreach : Relation.ReflTransGen Step s0 s) : StateInv s := by
  induction hreach with
  | refl => exact ⟨by rw [hr0], by rw [hr0]; exact ht0⟩
  | tail h1 h2 ih => exact step_preserves_inv _ _ h2 ih

/-- C6: in every state reachable from the initial `LOBBY` state (round 1,
at least one round): the round invariant `1 ≤ currentRound ≤ totalRounds`
holds and is preserved by the next step; from `TRADING_OFF` a step whose
target phase is `LOBBY` (advance) is possible only when
`currentRound < totalRounds` and increments the round by exactly 1, and a
step whose target phase is `FIN` (finalize) is possible only when
`currentRound = totalRounds` — so advancing from the final round is
impossible. -/
theorem phase_transitions_spec (s0 s s' : GameState)
    (_h0 : s0.game.estado = Phase.LOBBY)
    (hr0 : s0.game.ronda_actual = 1) (ht0 : 1 ≤ s0.game.rondas_totales)
    (hreach : Relation.ReflTransGen Step s0 s) (hstep : Step s s') :
    (1 ≤ s.game.ronda_actual
      ∧ s.game.ronda_actual ≤ s.game.rondas_totales)
    ∧ (1 ≤ s'.game.ronda_actual
      ∧ s'.game.ronda_actual ≤ s'.game.rondas_totales)
    ∧ (s.game.estado = Phase.TRADING_OFF →
        (s'.game.estado = Phase.LOBBY →
          s.game.ronda_actual < s.game.rondas_totales
          ∧ s'.game.ronda_actual = s.game.ronda_actual + 1)
        ∧ (s'.game.estado = Phase.FIN →
          s.game.ronda_actual = s.game.rondas_totales)) := by
  have hinv : StateInv s := reachable_inv s0 s hr0 ht0 hreach
  refine ⟨hinv, step_preserves_inv s s' hstep hinv, ?_⟩
  intro hoff
  cases hstep with
  | publish hb =>
      constructor
      · intro hl; simp [publish_prices_for_round] at hl
      · intro hf; simp [publish_prices_for_round] at hf
  | close =>
      constructor
      · intro hl; simp [close_trading] at hl
      · intro hf; simp [close_trading] at hf
  | advance h hlt =>
      constructor
      · intro _; exact ⟨hlt, rfl⟩
      · intro hf; simp [advance_round] at hf
  | finalize h hge =>
      constructor
      · intro hl; simp [finalize_game] at hl
      · intro _; exact le_antisymm hinv.2 (Nat.not_lt.mp hge)
  | register name =>
      constructor
      · intro hl; rw [team_register_game] at hl; rw [hoff] at hl
        exact absurd hl (by simp)
      · intro hf; rw [team_register_game] at hf; rw [hoff] at hf
        exact absurd hf (by simp)
  | order name side bond qty =>
      constructor
      · intro hl; rw [exec_order_game] at hl; rw [hoff] at hl
        exact absurd hl (by simp)
      · intro hf; rw [exec_order_game] at hf; rw [hoff] at hf
        exact absurd hf (by simp)

/-- The freshly initialised game document (`load_state` for a new game
code): `LOBBY`, round 1 of 3, empty scenario and history. -/
def stInit : GameState :=
  { game := { game0 with estado := Phase.LOBBY },
    bonds := [], events := [], prices := [], teams := [], orders := [],
    ledger := [] }

/-- Witness for C6 at the initial state with a close-trading step. -/
theorem phase_transitions_spec_witness :
    (1 ≤ stInit.game.ronda_actual
      ∧ stInit.game.ronda_actual ≤ stInit.game.rondas_totales)
    ∧ (1 ≤ (close_trading stInit).game.ronda_actual
      ∧ (close_trading stInit).game.ronda_actual
          ≤ (close_trading stInit).game.rondas_totales)
    ∧ (stInit.game.estado = Phase.TRADING_OFF →
        ((close_trading stInit).game.estado = Phase.LOBBY →
          stInit.game.ronda_actual < stInit.game.rondas_totales
          ∧ (close_trading stInit).game.ronda_actual
              = stInit.game.ronda_actual + 1)
        ∧ ((close_trading stInit).game.estado = Phase.FIN →
          stInit.game.ronda_actual = stInit.game.rondas_totales)) :=
  phase_transitions_spec stInit stInit (close_trading stInit) rfl rfl
    (by decide) Relation.ReflTransGen.refl (Step.close stInit)

/-- C10: `publish_prices_for_round` checks no phase or loaded-scenario
precondition: on every state — whatever the phase, even the terminal
`FIN`, and even with an empty bond list — it succeeds and the resulting
phase is `TRADING_ON` (the game record changes in no other way); with no
bonds it installs the empty price set for the current round, deleting
any previously published prices of that round.  (The "at least one bond"
guard exists only in the moderator UI.) -/
theorem publish_prices_no_precondition (st : GameState) :
    (publish_prices_for_round st).game
      = { st.game with estado := Phase.TRADING_ON }
    ∧ (publish_prices_for_round st).game.estado = Phase.TRADING_ON
    ∧ (st.bonds = [] →
        (publish_prices_for_round st).prices
          = st.prices.filter
              (fun p => !(p.ronda == st.game.ronda_actual))) := by
  refine ⟨rfl, rfl, ?_⟩
  intro hb
  show st.prices.filter _ ++ round_prices st = _
  simp [round_prices, hb]

/-- A terminal-phase state with no bonds but a stale round-1 price row. -/
def stFin : GameState :=
  { game := { game0 with estado := Phase.FIN }, bonds := [], events := [],
    prices := [pp1], teams := [], orders := [], ledger := [] }

/-- Witness for C10 at a `FIN`-phase state with no bonds: publishing
still succeeds, turns the phase to `TRADING_ON` and wipes the stale
round-1 price row. -/
theorem publish_prices_no_precondition_witness :
    stFin.bonds = []
    ∧ ((publish_prices_for_round stFin).game
      = { stFin.game with estado := Phase.TRADING_ON }
    ∧ (publish_prices_for_round stFin).game.estado = Phase.TRADING_ON
    ∧ (stFin.bonds = [] →
        (publish_prices_for_round stFin).prices
          = stFin.prices.filter
              (fun p => !(p.ronda == stFin.game.ronda_actual)))) :=
  ⟨rfl, publish_prices_no_precondition stFin⟩

/-- The level-coupon DCF present value as the spec's words state it
(§4.1): remaining maturity `max(0, m − e×q)`, periods
`N = max(1, ⌈remaining/(1/f)⌉)`, coupon `C = V×c/f`, per-period rate
`i = y/f`, value `Σ_{k=1..N} C/(1+i)^k + V/(1+i)^N`.  Stated for
comparison against `price_bond_mid`. -/
def dcf_spec_value (V c : ℚ) (f : ℤ) (m y q : ℚ) (e : ℕ) : ℚ :=
  let rem : ℚ := max 0 (m - (e : ℚ) * q)
  let N : ℕ := (max 1 (Int.ceil (rem / (1 / (f : ℚ))))).toNat
  let C : ℚ := V * c / (f : ℚ)
  let i : ℚ := y / (f : ℚ)
  (Finset.range N).sum (fun k => C / (1 + i) ^ (k + 1)) + V / (1 + i) ^ N

/-- C7: for every bond with positive initial maturity and frequency
`f ≥ 1`, every yield, year fraction and elapsed round count,
`price_bond_mid` returns exactly `max(0.01, DCF)` with the spec's DCF
formula, and in particular the returned mid price is strictly
positive. -/
theorem price_bond_mid_spec (b : Bond) (y q : ℚ) (e : ℕ)
    (_hm : 0 < b.vencimiento_anios) (hf : 1 ≤ b.frecuencia_anual) :
    price_bond_mid b y q e
      = max (1 / 100)
          (dcf_spec_value b.valor_nominal b.tasa_cupon_anual
            b.frecuencia_anual b.vencimiento_anios y q e)
    ∧ 0 < price_bond_mid b y q e := by
  have hne : b.frecuencia_anual ≠ 0 := by omega
  constructor
  · simp only [price_bond_mid, dcf_spec_value, if_neg hne, mul_div_assoc]
  · exact lt_of_lt_of_le (by norm_num) (le_max_left _ _)

/-- Witness for C7 at the example bond `B1` with the spec's concrete
round-1 yield `0.0125`, quarter-year rounds and no elapsed rounds. -/
theorem price_bond_mid_spec_witness :
    (0 : ℚ) < bondB1.vencimiento_anios
    ∧ (price_bond_mid bondB1 (125 / 10000) (1 / 4) 0
      = max (1 / 100)
          (dcf_spec_value bondB1.valor_nominal bondB1.tasa_cupon_anual
            bondB1.frecuencia_anual bondB1.vencimiento_anios
            (125 / 10000) (1 / 4) 0)
    ∧ 0 < price_bond_mid bondB1 (125 / 10000) (1 / 4) 0) :=
  ⟨by norm_num [bondB1],
    price_bond_mid_spec bondB1 (125 / 10000) (1 / 4) 0
      (by norm_num [bondB1]) (by norm_num [bondB1])⟩

/-- C8: the effective yield of the price row published for the `k`-th
bond of the scenario equals
`(spread + Σ market deltas of the round + Σ idiosyncratic impacts of the
round for that bond) / 10000` (base risk-free rate zero), and both event
sums are additive — each further event of matching kind/round/bond adds
its bps contribution, never overriding. -/
theorem published_yield_spec (st : GameState) (k : ℕ) :
    ((round_prices st)[k]?).map (fun pp => pp.y_efectiva)
      = (st.bonds[k]?).map (fun b =>
          (b.spread_bps + marketDelta st.events st.game.ronda_actual
            + idiosDelta st.events st.game.ronda_actual b.bond_id) / 10000)
    ∧ (∀ (e : Event) (es : List Event) (r : ℕ),
        marketDelta (e :: es) r
          = (if e.round = r ∧ e.tipo = EvTipo.MARKET
             then e.delta_tasa_bps else 0) + marketDelta es r)
    ∧ (∀ (e : Event) (es : List Event) (r : ℕ) (bid : String),
        idiosDelta (e :: es) r bid
          = (if e.round = r ∧ e.tipo = EvTipo.IDIOS ∧ strOfOpt e.bond_id = bid
             then e.impacto_bps else 0) + idiosDelta es r bid) := by
  refine ⟨?_, ?_, ?_⟩
  · cases hb : st.bonds[k]? with
    | none => simp [round_prices, hb]
    | some b => simp [round_prices, hb, price_row, effective_ytm]
  · intro e es r
    by_cases h1 : e.round = r
    · by_cases h2 : e.tipo = EvTipo.MARKET
      · simp [marketDelta, List.filter_cons, h1, h2]
      · simp [marketDelta, List.filter_cons, h1, h2]
    · simp [marketDelta, List.filter_cons, h1]
  · intro e es r bid
    by_cases h1 : e.round = r
    · by_cases h2 : e.tipo = EvTipo.IDIOS
      · by_cases h3 : strOfOpt e.bond_id = bid
        · simp [idiosDelta, List.filter_cons, h1, h2, h3]
        · simp [idiosDelta, List.filter_cons, h1, h2, h3]
      · simp [idiosDelta, List.filter_cons, h1, h2]
    · simp [idiosDelta, List.filter_cons, h1]

end MisionBonos
